import Mathlib

/-!
Shallow embedding of the IIO support layer (IIOSupport.hpp / IIOSupport.cpp):
the Context/Device/Channel/Buffer object model over libiio, with the generic
attribute protocol. Driver calls (libiio) are modelled by their observable
results, passed in explicitly; machine pointers become `Option Handle`
(`none` is a null pointer); thrown Pothos exceptions become `Except` /
`Outcome` error values.
-/

/-- Abstract native handles (iio_context, iio_device, iio_buffer pointers). -/
abbrev Handle := Nat

/-- Pothos exception classes thrown by the wrapper, as they appear in the
source (SystemException, NotFoundException, RangeException), plus the
ResourceUnavailable kind named by the specification for comparison. -/
inductive ExcKind
  | systemException
  | notFoundException
  | rangeException
  | resourceUnavailableException
  deriving DecidableEq, Repr

/-- Result of running a wrapper operation: normal return, a thrown Pothos
exception, or an undefined-behaviour fault (e.g. a null-pointer dereference),
which no exception handler can observe. -/
inductive Outcome (α : Type)
  | ok (a : α)
  | thrown (e : ExcKind)
  | fault
  deriving DecidableEq, Repr

/-- Reported data format of a channel (struct iio_data_format): `length` is
the sample length in bits, `isSigned` the signedness flag. -/
structure DataFormat where
  length : Nat
  isSigned : Bool
  deriving DecidableEq, Repr

/-- IIOChannel::read byte-span computation (IIOSupport.cpp line 340):
`size_t len = sample_count * format->length;` — the reported bit length is
used directly, with no division by 8. -/
def IIOChannel.readLen (format : DataFormat) (sampleCount : Nat) : Nat :=
  sampleCount * format.length

/-- IIOChannel::write byte-span computation (IIOSupport.cpp line 347):
`size_t len = sample_count * (format->length / 8);`. -/
def IIOChannel.writeLen (format : DataFormat) (sampleCount : Nat) : Nat :=
  sampleCount * (format.length / 8)

/-- Pothos::DType values produced by IIOChannel::dtype: one of the eight
fixed-width integer typeids, or a char blob of a given byte dimension. -/
inductive DType
  | int8
  | uint8
  | int16
  | uint16
  | int32
  | uint32
  | int64
  | uint64
  | charBlob (dimension : Nat)
  deriving DecidableEq, Repr

/-- IIOChannel::dtype (IIOSupport.cpp lines 351-383): switch on the reported
bit length; 8/16/32/64 select a fixed-width integer typeid by signedness, any
other length falls to `DType(typeid(char), format->length / 8)`. -/
def IIOChannel.dtype (format : DataFormat) : DType :=
  if format.length = 8 then
    if format.isSigned then .int8 else .uint8
  else if format.length = 16 then
    if format.isSigned then .int16 else .uint16
  else if format.length = 32 then
    if format.isSigned then .int32 else .uint32
  else if format.length = 64 then
    if format.isSigned then .int64 else .uint64
  else
    .charBlob (format.length / 8)

/-- An attribute owner (IIODevice or IIOChannel) as seen by the generic
IIOAttrs / IIOAttr code: the owner supplies an indexed family of attribute
names. The driver's current attribute set is the list `attrs`;
`iio_get_attrs_count` is its length and `iio_get_attr idx` returns the name
at `idx`, or a null pointer (`none`) out of range, exactly as
iio_device_get_attr / iio_channel_get_attr do. -/
structure AttrOwner where
  attrs : List String
  deriving DecidableEq, Repr

/-- Owner primitive iio_get_attrs_count (IIOSupport.cpp lines 176-179,
273-276). -/
def AttrOwner.iio_get_attrs_count (p : AttrOwner) : Nat :=
  p.attrs.length

/-- Owner primitive iio_get_attr (IIOSupport.cpp lines 171-174, 268-271):
null (`none`) when `idx` is out of range. -/
def AttrOwner.iio_get_attr (p : AttrOwner) (idx : Nat) : Option String :=
  p.attrs.get? idx

/-- IIOAttrs<T>::Iterator: the parent owner plus the current index. -/
structure AttrsIterator where
  parent : AttrOwner
  idx : Nat
  deriving DecidableEq, Repr

/-- IIOAttrs<T>::Iterator::operator* (IIOSupport.cpp lines 74-82): throws
RangeException when `idx > count`, otherwise returns
`IIOAttr(parent, parent.iio_get_attr(idx))`; the attribute's name pointer is
whatever iio_get_attr returned (possibly null). -/
def AttrsIterator.deref (it : AttrsIterator) :
    Except ExcKind (AttrOwner × Option String) :=
  if it.idx > it.parent.iio_get_attrs_count then
    .error .rangeException
  else
    .ok (it.parent, it.parent.iio_get_attr it.idx)

/-- Loop body of IIOAttrs<T>::at (IIOSupport.cpp lines 96-106) over the
remaining attribute names: return the first attribute whose name compares
equal to `name`, else fall through to the RangeException. -/
def IIOAttrs.atFrom (attrs : List String) (name : String) :
    Except ExcKind String :=
  match attrs with
  | [] => .error .rangeException
  | a :: rest => if a = name then .ok a else IIOAttrs.atFrom rest name

/-- IIOAttrs<T>::at: range-for over begin()..end() (indices 0..count-1,
visiting `attrs` in order) comparing each attribute's name. -/
def IIOAttrs.at' (p : AttrOwner) (name : String) : Except ExcKind String :=
  IIOAttrs.atFrom p.attrs name

/-- Stop index of C strnlen started at absolute index `start` with `fuel`
characters still allowed: the first index `i ≥ start` with `mem i = 0`, or
`start + fuel` if none occurs in the window. `mem` is the byte content of
memory (the scratch array occupies indices 0..1023; larger indices are
memory beyond it). -/
def strnlenFrom (mem : Nat → Nat) (start : Nat) : Nat → Nat
  | 0 => start
  | fuel + 1 => if mem start = 0 then start else strnlenFrom mem (start + 1) fuel

/-- Value of `strnlen(buf, maxlen)` as called at IIOSupport.cpp line 160:
index of the first null byte, or `maxlen` when no null occurs before it. -/
def strnlen (mem : Nat → Nat) (maxlen : Nat) : Nat :=
  strnlenFrom mem 0 maxlen

/-- The exact sequence of memory indices the strnlen scan dereferences,
started at `start` with `fuel` characters still allowed: each step reads one
byte and stops after reading a null. -/
def strnlenScanFrom (mem : Nat → Nat) (start : Nat) : Nat → List Nat
  | 0 => []
  | fuel + 1 =>
    start :: (if mem start = 0 then [] else strnlenScanFrom mem (start + 1) fuel)

/-- Scratch capacity of the attribute read (`char buf[1024]`,
IIOSupport.cpp line 152). -/
def scratchCapacity : Nat := 1024

/-- IIOAttr<T>::operator std::string (IIOSupport.cpp lines 147-161): calls
iio_attr_read(attr, buf, 1024); a negative return throws SystemException;
otherwise the result is `std::string(buf, strnlen(buf, ret))` — the first
`strnlen(mem, ret)` bytes of the scratch memory. `mem` is the scratch
contents after the driver call and `ret` the driver's return value. -/
def IIOAttr.toString (mem : Nat → Nat) (ret : Int) :
    Except ExcKind (List Nat) :=
  if ret < 0 then
    .error .systemException
  else
    .ok ((List.range (strnlen mem ret.toNat)).map mem)

/-- IIOContextRaw::IIOContextRaw (IIOSupport.cpp lines 10-17):
iio_create_local_context returns a context pointer or null; on null the
constructor throws Pothos::SystemException carrying the driver's last error
message. `driverResult` is the returned pointer, `lastMsg` the driver's last
diagnostic. -/
def IIOContextRaw.construct (driverResult : Option Handle) (lastMsg : String) :
    Except (ExcKind × String) Handle :=
  match driverResult with
  | some h => .ok h
  | none => .error (.systemException, "iio_create_local_context: " ++ lastMsg)

/-- Owning state of an IIOBuffer: the possibly-null iio_buffer pointer (the
shared context reference carries no behaviour relevant here). -/
structure BufferState where
  buffer : Option Handle
  deriving DecidableEq, Repr

/-- IIOBuffer::IIOBuffer(ctx, device, samples_count, cyclic)
(IIOSupport.cpp lines 385-393): iio_device_create_buffer returns a buffer
pointer or null; on null the constructor throws Pothos::SystemException
carrying the driver's last error message. -/
def IIOBuffer.construct (driverResult : Option Handle) (lastMsg : String) :
    Except (ExcKind × String) BufferState :=
  match driverResult with
  | some h => .ok { buffer := some h }
  | none => .error (.systemException, "iio_device_create_buffer: " ++ lastMsg)

/-- IIOBuffer::IIOBuffer(IIOBuffer&&) (IIOSupport.cpp lines 395-400): the
destination takes `other.buffer`, the source's pointer becomes null. Returns
(moved-to state, moved-from state). -/
def IIOBuffer.move (other : BufferState) : BufferState × BufferState :=
  ({ buffer := other.buffer }, { buffer := none })

/-- IIOBuffer::~IIOBuffer (IIOSupport.cpp lines 402-407): calls
iio_buffer_destroy exactly when the pointer is non-null. Returns the list of
native release calls the destructor performs. -/
def IIOBuffer.destructorReleases (b : BufferState) : List Handle :=
  match b.buffer with
  | some h => [h]
  | none => []

/-- All buffer objects arising when a buffer in state `b` is move-constructed
from `n` times in a chain: the `n` moved-from sources followed by the final
holder. -/
def IIOBuffer.moveChain (b : BufferState) : Nat → List BufferState
  | 0 => [b]
  | n + 1 => (IIOBuffer.move b).2 :: IIOBuffer.moveChain (IIOBuffer.move b).1 n

/-- Native release calls performed over a whole lifetime: a buffer is created
over native handle `h`, moved `n` times, and every object (each moved-from
source and the final holder) is destroyed. -/
def IIOBuffer.lifetimeReleases (h : Handle) (n : Nat) : List Handle :=
  ((IIOBuffer.moveChain { buffer := some h } n).map IIOBuffer.destructorReleases).flatten

/-- Driver-side trigger association of one device, as stored by the kernel
for iio_device_get_trigger / iio_device_set_trigger. -/
structure TriggerDriver where
  assoc : Option Handle
  deriving DecidableEq, Repr

/-- Model of iio_device_set_trigger: the driver either rejects the request
with the nonzero code `ret` (association unchanged) or accepts (`ret = 0`)
and stores the handle (null clears it). -/
def iio_device_set_trigger (st : TriggerDriver) (t : Option Handle) (ret : Int) :
    Int × TriggerDriver :=
  if ret ≠ 0 then (ret, st) else (0, { assoc := t })

/-- IIODevice::setTrigger(IIODevice *trigger) (IIOSupport.cpp lines 238-245):
evaluates `trigger->device` unconditionally — a null-pointer dereference
fault when `trigger` is null — then calls iio_device_set_trigger; a nonzero
return throws SystemException. -/
def IIODevice.setTrigger (st : TriggerDriver) (trigger : Option Handle)
    (ret : Int) : Outcome TriggerDriver :=
  match trigger with
  | none => .fault
  | some h =>
    let r := iio_device_set_trigger st (some h) ret
    if r.1 ≠ 0 then .thrown .systemException else .ok r.2

/-- IIODevice::trigger (IIOSupport.cpp lines 222-236): a nonzero driver
return throws SystemException; a null reported trigger throws
NotFoundException; otherwise the reported handle is wrapped in a new
IIODevice. `ret` is the iio_device_get_trigger return code; on success the
reported pointer is the driver association `st.assoc`. -/
def IIODevice.trigger (st : TriggerDriver) (ret : Int) : Outcome Handle :=
  if ret ≠ 0 then .thrown .systemException
  else
    match st.assoc with
    | none => .thrown .notFoundException
    | some h => .ok h

theorem strnlenFrom_ge (mem : Nat → Nat) (fuel : Nat) :
    ∀ start, start ≤ strnlenFrom mem start fuel := by
  induction fuel with
  | zero => intro s; simp [strnlenFrom]
  | succ n ih =>
    intro s
    simp only [strnlenFrom]
    split
    · exact Nat.le_refl s
    · exact Nat.le_trans (Nat.le_succ s) (ih (s + 1))

theorem strnlenFrom_le (mem : Nat → Nat) (fuel : Nat) :
    ∀ start, strnlenFrom mem start fuel ≤ start + fuel := by
  induction fuel with
  | zero => intro s; simp [strnlenFrom]
  | succ n ih =>
    intro s
    simp only [strnlenFrom]
    split
    · exact Nat.le_add_right s (n + 1)
    · have := ih (s + 1)
      omega

theorem strnlenFrom_nonzero (mem : Nat → Nat) (fuel : Nat) :
    ∀ start i, start ≤ i → i < strnlenFrom mem start fuel → mem i ≠ 0 := by
  induction fuel with
  | zero =>
    intro s i hsi hi
    simp [strnlenFrom] at hi
    omega
  | succ n ih =>
    intro s i hsi hi
    simp only [strnlenFrom] at hi
    by_cases h0 : mem s = 0
    · simp [h0] at hi
      omega
    · simp [h0] at hi
      rcases Nat.eq_or_lt_of_le hsi with rfl | hlt
      · exact h0
      · exact ih (s + 1) i hlt hi

theorem strnlenFrom_stop (mem : Nat → Nat) (fuel : Nat) :
    ∀ start, strnlenFrom mem start fuel < start + fuel →
      mem (strnlenFrom mem start fuel) = 0 := by
  induction fuel with
  | zero =>
    intro s h
    simp [strnlenFrom] at h
  | succ n ih =>
    intro s h
    simp only [strnlenFrom] at h ⊢
    by_cases h0 : mem s = 0
    · simp [h0]
    · simp [h0] at h ⊢
      exact ih (s + 1) (by omega)

theorem strnlenScanFrom_lt (mem : Nat → Nat) (fuel : Nat) :
    ∀ start i, i ∈ strnlenScanFrom mem start fuel → i < start + fuel := by
  induction fuel with
  | zero =>
    intro s i hi
    simp [strnlenScanFrom] at hi
  | succ n ih =>
    intro s i hi
    simp only [strnlenScanFrom, List.mem_cons] at hi
    rcases hi with rfl | hi
    · omega
    · by_cases h0 : mem s = 0
      · simp [h0] at hi
      · simp [h0] at hi
        have := ih (s + 1) i hi
        omega

theorem strnlenScanFrom_le_null (mem : Nat → Nat) (fuel : Nat) :
    ∀ start j, start ≤ j → mem j = 0 →
      ∀ i, i ∈ strnlenScanFrom mem start fuel → i ≤ j := by
  induction fuel with
  | zero =>
    intro s j _ _ i hi
    simp [strnlenScanFrom] at hi
  | succ n ih =>
    intro s j hsj h0 i hi
    simp only [strnlenScanFrom, List.mem_cons] at hi
    rcases hi with rfl | hi
    · exact hsj
    · by_cases hs : mem s = 0
      · simp [hs] at hi
      · simp [hs] at hi
        have hsne : s ≠ j := fun e => hs (e ▸ h0)
        exact ih (s + 1) j (by omega) h0 i hi

theorem strnlenScanFrom_mem_of_nonzero (mem : Nat → Nat)
    (h : ∀ i, mem i ≠ 0) (fuel : Nat) :
    ∀ start k, k < fuel → start + k ∈ strnlenScanFrom mem start fuel := by
  induction fuel with
  | zero =>
    intro s k hk
    omega
  | succ n ih =>
    intro s k hk
    simp only [strnlenScanFrom, if_neg (h s), List.mem_cons]
    cases k with
    | zero => exact Or.inl (by omega)
    | succ m =>
      refine Or.inr ?_
      have := ih (s + 1) m (by omega)
      have heq : s + (m + 1) = (s + 1) + m := by omega
      rw [heq]
      exact this

/-- C1: the claim says read computes the byte span as sampleCount times the
element byte width, mirroring write's division of the bit width by 8;
the code multiplies by the bit width directly. At a 16-bit format and
sampleCount 4 read requests 64 bytes where the claimed computation (and
write's own computation) gives 8. -/
theorem C1_read_span_uses_bits :
    IIOChannel.readLen { length := 16, isSigned := true } 4 = 64
  ∧ IIOChannel.writeLen { length := 16, isSigned := true } 4 = 8
  ∧ IIOChannel.readLen { length := 16, isSigned := true } 4 ≠ 4 * (16 / 8) := by
  decide

/-- C2: the claim says dereferencing at index i fails with RangeError for
every i ≥ the current count; the code's guard is `idx > count`, so at i equal
to the count (owner with one attribute, i = 1) no RangeError is raised and the
dereference yields an attribute whose name pointer is null. -/
theorem C2_deref_at_count_no_range_error :
    AttrsIterator.deref { parent := { attrs := ["a"] }, idx := 1 } =
      Except.ok ({ attrs := ["a"] }, none)
  ∧ AttrsIterator.deref { parent := { attrs := ["a"] }, idx := 1 } ≠
      Except.error ExcKind.rangeException := by
  refine ⟨rfl, ?_⟩
  intro h
  simp [AttrsIterator.deref, AttrOwner.iio_get_attrs_count,
    AttrOwner.iio_get_attr] at h

/-- C3: the claim (and the header documentation) says setTrigger with a null
argument clears the association without fault; the code evaluates
`trigger->device` unconditionally, so a null argument is a null-pointer
dereference fault, not a well-defined call. -/
theorem C3_setTrigger_null_faults :
    IIODevice.setTrigger { assoc := some 7 } none 0 = Outcome.fault
  ∧ (Outcome.fault : Outcome TriggerDriver) ≠ Outcome.ok { assoc := none } := by
  decide

/-- C4 counterexample: when the driver cannot create the native resource,
both constructors throw Pothos::SystemException, not the
ResourceUnavailable kind the claim names. -/
theorem C4_counterexample_system_exception :
    IIOContextRaw.construct none "m" =
      Except.error (ExcKind.systemException, "iio_create_local_context: " ++ "m")
  ∧ IIOBuffer.construct none "m" =
      Except.error (ExcKind.systemException, "iio_device_create_buffer: " ++ "m")
  ∧ ExcKind.systemException ≠ ExcKind.resourceUnavailableException :=
  ⟨rfl, rfl, by decide⟩

/-- C4 amended: when the driver cannot create the native resource,
construction of the native context handle and construction of a Buffer each
fail with the SystemError kind, carrying the driver's last diagnostic
string. -/
theorem C4_construct_failure_kind (msg : String) :
    IIOContextRaw.construct none msg =
      Except.error (ExcKind.systemException, "iio_create_local_context: " ++ msg)
  ∧ IIOBuffer.construct none msg =
      Except.error (ExcKind.systemException, "iio_device_create_buffer: " ++ msg) :=
  ⟨rfl, rfl⟩

/-- C5: the attribute string conversion fails with SystemError exactly when
the driver read returns a negative code; on a non-negative count ret the
result is the scratch contents truncated at the first null byte or at ret
bytes, whichever is smaller. -/
theorem C5_attr_value_truncation (mem : Nat → Nat) (ret : Int) :
    (ret < 0 → IIOAttr.toString mem ret = Except.error ExcKind.systemException)
  ∧ (0 ≤ ret →
      ∃ l, IIOAttr.toString mem ret = Except.ok l
        ∧ l = (List.range l.length).map mem
        ∧ l.length ≤ ret.toNat
        ∧ (∀ i, i < l.length → mem i ≠ 0)
        ∧ (l.length < ret.toNat → mem l.length = 0)) := by
  constructor
  · intro h
    simp [IIOAttr.toString, h]
  · intro h
    refine ⟨(List.range (strnlen mem ret.toNat)).map mem, ?_, ?_, ?_, ?_, ?_⟩
    · simp [IIOAttr.toString, not_lt.mpr h]
    · simp
    · simpa using strnlenFrom_le mem ret.toNat 0
    · intro i hi
      simp only [List.length_map, List.length_range] at hi
      exact strnlenFrom_nonzero mem ret.toNat 0 i (Nat.zero_le i) hi
    · intro hlt
      simp only [List.length_map, List.length_range] at hlt ⊢
      exact strnlenFrom_stop mem ret.toNat 0 (by simpa using hlt)

/-- Witness for C5 at a scratch holding three nonzero bytes then nulls, with
the driver returning 10. -/
theorem C5_attr_value_truncation_witness :
    (0 : Int) ≤ 10
  ∧ (∃ l, IIOAttr.toString (fun i => if i < 3 then 65 else 0) 10 = Except.ok l
      ∧ l = (List.range l.length).map (fun i => if i < 3 then 65 else 0)
      ∧ l.length ≤ (10 : Int).toNat
      ∧ (∀ i, i < l.length → (fun i => if i < 3 then 65 else 0) i ≠ 0)
      ∧ (l.length < (10 : Int).toNat →
          (fun i => if i < 3 then 65 else 0) l.length = 0)) :=
  ⟨by decide,
    (C5_attr_value_truncation (fun i => if i < 3 then 65 else 0) 10).2 (by decide)⟩

/-- C6: trigger() fails with NotFound exactly when the driver call succeeds
with no associated trigger, with SystemError exactly when the driver call
returns an error code, and otherwise returns the driver-reported handle; a
trigger read back after a successful setTrigger equals the handle set. -/
theorem C6_trigger_result (st : TriggerDriver) (ret : Int) :
    (IIODevice.trigger st ret = Outcome.thrown ExcKind.notFoundException ↔
       ret = 0 ∧ st.assoc = none)
  ∧ (IIODevice.trigger st ret = Outcome.thrown ExcKind.systemException ↔
       ret ≠ 0)
  ∧ (∀ h, ret = 0 → st.assoc = some h →
       IIODevice.trigger st ret = Outcome.ok h)
  ∧ (∀ h st0,
       IIODevice.setTrigger st0 (some h) 0 = Outcome.ok { assoc := some h }
     ∧ IIODevice.trigger { assoc := some h } 0 = Outcome.ok h) := by
  by_cases hr : ret = 0 <;>
    cases hst : st.assoc <;>
      simp_all [IIODevice.trigger, IIODevice.setTrigger, iio_device_set_trigger]

/-- Witness for C6: reading the trigger back on a driver state holding
handle 5 with a successful driver call returns handle 5. -/
theorem C6_trigger_result_witness :
    IIODevice.trigger { assoc := some 5 } 0 = Outcome.ok 5 :=
  (C6_trigger_result { assoc := some 5 } 0).2.2.1 5 rfl rfl

/-- C7: dtype is total; outside bit widths 8, 16, 32 and 64 it yields the
opaque char blob of length/8 bytes, and on the eight canonical
width/signedness pairs it yields the eight pairwise-distinct fixed-width
integer types. -/
theorem C7_dtype_total (format : DataFormat) :
    (format.length ≠ 8 → format.length ≠ 16 → format.length ≠ 32 →
       format.length ≠ 64 →
       IIOChannel.dtype format = DType.charBlob (format.length / 8))
  ∧ ([(8, true), (8, false), (16, true), (16, false), (32, true), (32, false),
        (64, true), (64, false)].map
        (fun p => IIOChannel.dtype { length := p.1, isSigned := p.2 }) =
      [DType.int8, DType.uint8, DType.int16, DType.uint16, DType.int32,
        DType.uint32, DType.int64, DType.uint64])
  ∧ ([DType.int8, DType.uint8, DType.int16, DType.uint16, DType.int32,
        DType.uint32, DType.int64, DType.uint64] : List DType).Nodup := by
  refine ⟨?_, by decide, by decide⟩
  intro h8 h16 h32 h64
  simp [IIOChannel.dtype, h8, h16, h32, h64]

/-- Witness for C7 at the non-canonical width 24: an opaque 3-byte blob. -/
theorem C7_dtype_total_witness :
    IIOChannel.dtype { length := 24, isSigned := true } =
      DType.charBlob (24 / 8) :=
  (C7_dtype_total { length := 24, isSigned := true }).1
    (by decide) (by decide) (by decide) (by decide)

theorem IIOBuffer.moveChain_releases (n : Nat) :
    ∀ b : BufferState,
      ((IIOBuffer.moveChain b n).map IIOBuffer.destructorReleases).flatten =
        IIOBuffer.destructorReleases b := by
  induction n with
  | zero =>
    intro b
    simp [IIOBuffer.moveChain]
  | succ m ih =>
    intro b
    simp [IIOBuffer.moveChain, IIOBuffer.move, IIOBuffer.destructorReleases,
      ih { buffer := b.buffer }]

/-- C8: moving a Buffer transfers the mapped-region pointer to the
destination and nulls the source, the moved-from destructor performs no
native release, a whole lifetime with any number of moves releases the
native handle exactly once, and a never-moved Buffer is released exactly
once on destruction. -/
theorem C8_move_release_once (b : BufferState) (h : Handle) (n : Nat) :
    (IIOBuffer.move b).1.buffer = b.buffer
  ∧ (IIOBuffer.move b).2.buffer = none
  ∧ IIOBuffer.destructorReleases (IIOBuffer.move b).2 = []
  ∧ IIOBuffer.lifetimeReleases h n = [h]
  ∧ IIOBuffer.destructorReleases { buffer := some h } = [h] := by
  refine ⟨rfl, rfl, rfl, ?_, rfl⟩
  simp [IIOBuffer.lifetimeReleases, IIOBuffer.moveChain_releases,
    IIOBuffer.destructorReleases]

theorem IIOAttrs.atFrom_spec (name : String) (attrs : List String) :
    (name ∈ attrs → IIOAttrs.atFrom attrs name = Except.ok name)
  ∧ (name ∉ attrs →
      IIOAttrs.atFrom attrs name = Except.error ExcKind.rangeException) := by
  induction attrs with
  | nil => simp [IIOAttrs.atFrom]
  | cons a rest ih =>
    constructor
    · intro hmem
      by_cases ha : a = name
      · simp [IIOAttrs.atFrom, ha]
      · have hr : name ∈ rest := by
          rcases List.mem_cons.mp hmem with h | h
          · exact absurd h.symm ha
          · exact h
        simp [IIOAttrs.atFrom, ha, ih.1 hr]
    · intro hmem
      have ha : a ≠ name := fun e => hmem (e ▸ List.mem_cons_self a rest)
      have hr : name ∉ rest := fun h => hmem (List.mem_cons_of_mem a h)
      simp [IIOAttrs.atFrom, ha, ih.2 hr]

/-- C9: at(name) linearly scans the iteration sequence; for any name a full
iteration visits it returns the first attribute whose name equals that name,
and when no visited attribute matches it fails with RangeError. -/
theorem C9_at_linear_scan (p : AttrOwner) (name : String) :
    (name ∈ p.attrs → IIOAttrs.at' p name = Except.ok name)
  ∧ (name ∉ p.attrs →
      IIOAttrs.at' p name = Except.error ExcKind.rangeException) :=
  IIOAttrs.atFrom_spec name p.attrs

/-- Witness for C9: looking up a visited name returns it. -/
theorem C9_at_linear_scan_witness :
    ("b" ∈ ({ attrs := ["a", "b"] } : AttrOwner).attrs)
  ∧ IIOAttrs.at' { attrs := ["a", "b"] } "b" = Except.ok "b" :=
  ⟨by decide, (C9_at_linear_scan { attrs := ["a", "b"] } "b").1 (by decide)⟩

/-- C10 counterexample: with the driver reporting 1025 bytes and a scratch
buffer holding no null byte, the length-determining scan dereferences index
1024, outside the 1024-byte scratch buffer — the scan bound is ret itself,
not the minimum of ret and the capacity. -/
theorem C10_counterexample_scan_escapes :
    ¬ (∀ i ∈ strnlenScanFrom (fun _ => 1) 0 1025, i < scratchCapacity) := by
  intro hall
  have h1024 : (0 : Nat) + 1024 ∈ strnlenScanFrom (fun _ => 1) 0 1025 :=
    strnlenScanFrom_mem_of_nonzero (fun _ => 1) (fun i => by simp) 1025 0 1024
      (by omega)
  have := hall _ h1024
  simp [scratchCapacity] at this

/-- C10 amended: the scan bound is ret (not clamped to the capacity), and
every index the scan dereferences lies within the 1024-byte scratch buffer
provided ret is at most the scratch capacity or a null byte lies within the
scratch buffer. -/
theorem C10_scan_within_scratch (mem : Nat → Nat) (ret : Nat)
    (h : ret ≤ scratchCapacity ∨ ∃ j, j < scratchCapacity ∧ mem j = 0) :
    ∀ i ∈ strnlenScanFrom mem 0 ret, i < scratchCapacity := by
  intro i hi
  rcases h with hle | ⟨j, hj, h0⟩
  · have := strnlenScanFrom_lt mem ret 0 i hi
    omega
  · have := strnlenScanFrom_le_null mem ret 0 j (Nat.zero_le j) h0 i hi
    omega

/-- Witness for C10 at ret = 100 on a never-null scratch: the scan stays
within the buffer. -/
theorem C10_scan_within_scratch_witness :
    (100 ≤ scratchCapacity ∨ ∃ j, j < scratchCapacity ∧ (fun _ => 1) j = 0)
  ∧ (∀ i ∈ strnlenScanFrom (fun _ => 1) 0 100, i < scratchCapacity) :=
  ⟨Or.inl (by decide),
    C10_scan_within_scratch (fun _ => 1) 100 (Or.inl (by decide))⟩
